import Mathlib

/-!
Verification development for the SonicSlicer audio splitting/trimming tool.

The definitions below are a shallow embedding of the segment-calculation
logic of `sonicslicer/slicer.py` and `sonicslicer/validators.py`.  Audio
buffers are modelled by their total duration in milliseconds; slicing is
modelled at millisecond granularity by the interval of kept milliseconds.
Python floats (seconds supplied by the user) are modelled as rationals, and
Python `int(...)` truncation toward zero is modelled by `pyInt`.
-/

set_option autoImplicit false

namespace SonicSlicer

/-- Error kinds, one per distinct raise site of the embedded code.  The
spec groups `trimStartNotPositive`, `trimStartExceedsDuration`,
`trimEndNotPositive`, `trimEndExceedsDuration`, `invalidTimeRange` and
`trimRangeExceedsDuration` under `InvalidRangeError`; `maxSizeNotPositive`
is `InvalidSizeError`; `splitTimeExceedsDuration` is `ExceedsDurationError`;
`ambiguousTrimSpec` is `AmbiguousTrimSpecError`; `noChunksCreated` is
`NoChunksProducedError`; `invalidUnit` is `InvalidUnitError`. -/
inductive Err where
  | unsupportedFormat
  | invalidUnit
  | chunkDurationNotPositive
  | splitTimeExceedsDuration
  | noChunksCreated
  | maxSizeNotPositive
  | ambiguousTrimSpec
  | trimStartNotPositive
  | trimStartExceedsDuration
  | trimEndNotPositive
  | trimEndExceedsDuration
  | invalidTimeRange
  | trimRangeExceedsDuration
  deriving DecidableEq, Repr

/-- Observable actions of one processor operation, in program order:
file validation, audio decode (the only file input), chunk export (file
output), a raised exception, or a logged (non-fatal) warning. -/
inductive Event where
  | validateFile
  | loadAudio
  | saveAudio
  | raiseErr (e : Err)
  | logWarn (e : Err)
  deriving DecidableEq, Repr

/-- Python `int(x)` on a float: truncation toward zero. -/
def pyInt (q : ℚ) : ℤ :=
  if q < 0 then ⌈q⌉ else ⌊q⌋

/-- Python slice upper bound `l[:k]` for an integer `k` (negative `k`
counts from the end, clamped at 0). -/
def pyTake {α : Type} (l : List α) (k : ℤ) : List α :=
  if k < 0 then l.take ((l.length : ℤ) + k).toNat else l.take k.toNat

/-- Modelled from the spec and the external collaborator pydub
(`AudioSegment._parse_position`): a slice position is clamped above by the
total length and a negative position counts backward from the end. -/
def parsePosition (total : ℕ) (v : ℤ) : ℤ :=
  let w := min v (total : ℤ)
  if w < 0 then (total : ℤ) + w else w

/-- Modelled from the spec and the external collaborator pydub: the final
byte-level slice `data[s:e]` clamps Python-style into `[0, total]`. -/
def byteClamp (total : ℕ) (v : ℤ) : ℤ :=
  if v < 0 then max ((total : ℤ) + v) 0 else min v (total : ℤ)

/-- Modelled from the spec and the external collaborator pydub
(`AudioSegment.__getitem__` on a slice `audio[start:stop]`): the pair of
resolved millisecond positions; the kept milliseconds are
`[resolved start, resolved stop)` (empty when `stop ≤ start`). -/
def audioSlice (total : ℕ) (start stop : ℤ) : ℤ × ℤ :=
  (byteClamp total (parsePosition total start), byteClamp total (parsePosition total stop))

/-- Length in milliseconds of a kept segment `[w.1, w.2)`. -/
def segLen (w : ℤ × ℤ) : ℤ :=
  max (w.2 - w.1) 0

/-- The `sections` argument of `split_by_time`: the string `"max"` or an
integer count (from the CLI `--count`). -/
inductive Sections where
  | max
  | num (n : ℤ)
  deriving DecidableEq, Repr

/-- Embeds `_sections = 0 if sections == "max" else int(sections)`. -/
def sectionsInt : Sections → ℤ
  | .max => 0
  | .num n => n

/-- Modelled from the external collaborator `pydub.utils.make_chunks`:
`number_of_chunks = ceil(len(audio) / float(chunk_length))`. -/
def numChunks (total : ℕ) (chunk : ℤ) : ℕ :=
  (⌈(total : ℚ) / (chunk : ℚ)⌉).toNat

/-- Modelled from the external collaborator `pydub.utils.make_chunks`:
the list `[audio[i*chunk_length:(i+1)*chunk_length] for i in range(number_of_chunks)]`. -/
def make_chunks (total : ℕ) (chunk : ℤ) : List (ℤ × ℤ) :=
  (List.range (numChunks total chunk)).map
    (fun (i : ℕ) => audioSlice total ((i : ℤ) * chunk) (((i : ℤ) + 1) * chunk))

/-- Embeds `if strict and chunks and len(chunks[-1]) < chunk_duration_ms:
chunks = chunks[:-1]` from `AudioProcessor.split_by_time`. -/
def dropSmallLast (chunk : ℤ) (strict : Bool) (chunks : List (ℤ × ℤ)) : List (ℤ × ℤ) :=
  match strict, chunks.getLast? with
  | true, some w => if segLen w < chunk then chunks.dropLast else chunks
  | _, _ => chunks

/-- Embeds the segment plan of `AudioProcessor.split_by_time`
(slicer.py lines 78-157): the list of kept millisecond ranges, or the
raised error.  The `"No chunks created"` case is only logged (the warning
appears in `split_by_time_events`), so the plan continues with the empty
list. -/
def split_by_time (total : ℕ) (chunk : ℤ) (sections : Sections) (strict : Bool) :
    Except Err (List (ℤ × ℤ)) :=
  if chunk ≤ 0 then .error .chunkDurationNotPositive
  else if sections = Sections.num 1 then
    if (total : ℤ) ≤ chunk then .error .splitTimeExceedsDuration
    else .ok [audioSlice total 0 chunk, audioSlice total chunk (total : ℤ)]
  else
    let chunks := dropSmallLast chunk strict (make_chunks total chunk)
    let s := sectionsInt sections
    .ok (if s ≠ 0 then pyTake chunks s else chunks)

/-- Embeds the `bytes_per_ms` estimate of `AudioProcessor.split_by_size`
(slicer.py lines 185-194); `kbps` is the numeric part of the stored
bitrate string (e.g. 192 for `"192k"`). -/
def bytes_per_ms (output_format : String) (kbps : ℤ) (sample_width channels frame_rate : ℕ) : ℚ :=
  if output_format = "wav" then
    ((sample_width : ℚ) * (channels : ℚ) * (frame_rate : ℚ)) / 1000
  else
    ((kbps : ℚ) * 1000) / (8 * 1000)

/-- Embeds the segment plan of `AudioProcessor.split_by_size`
(slicer.py lines 159-200): checks the size, converts it to a chunk
duration and delegates to `split_by_time`. -/
def split_by_size (total : ℕ) (output_format : String) (kbps : ℤ)
    (sample_width channels frame_rate : ℕ) (max_size_bytes : ℤ)
    (sections : Sections) (strict : Bool) : Except Err (List (ℤ × ℤ)) :=
  if max_size_bytes ≤ 0 then .error .maxSizeNotPositive
  else
    let chunk := pyInt ((max_size_bytes : ℚ) / bytes_per_ms output_format kbps sample_width channels frame_rate)
    split_by_time total chunk sections strict

/-- Embeds `trim_start = None if trim_start == 0 else trim_start` from
`AudioProcessor.trim`. -/
def normStart (trim_start : Option ℚ) : Option ℚ :=
  if trim_start = some 0 then none else trim_start

/-- Embeds `trim_end = None if trim_end == -1 else trim_end` from
`AudioProcessor.trim`. -/
def normEnd (trim_end : Option ℚ) : Option ℚ :=
  if trim_end = some (-1) then none else trim_end

/-- Embeds `sum(x is not None for x in [trim_start, trim_end, trim_range])`
from `AudioProcessor.trim`, applied after the sentinel normalization. -/
def providedCount (trim_start trim_end : Option ℚ) (trim_range : Option (ℚ × ℚ)) : ℕ :=
  (normStart trim_start).isSome.toNat + (normEnd trim_end).isSome.toNat +
    trim_range.isSome.toNat

/-- Embeds the kept-segment computation of `AudioProcessor.trim`
(slicer.py lines 202-280): sentinel normalization (`trim_start == 0` and
`trim_end == -1` mean absent), the exactly-one check, and the three
branches.  The final `none, none, none` case is unreachable because the
count check already rejected it. -/
def trim (total : ℕ) (trim_start trim_end : Option ℚ) (trim_range : Option (ℚ × ℚ)) :
    Except Err (ℤ × ℤ) :=
  let ts := normStart trim_start
  let te := normEnd trim_end
  if providedCount trim_start trim_end trim_range ≠ 1 then
    .error .ambiguousTrimSpec
  else
    match ts, te, trim_range with
    | some s, _, _ =>
      if s ≤ 0 then .error .trimStartNotPositive
      else
        let start_ms := pyInt (s * 1000)
        if (total : ℤ) ≤ start_ms then .error .trimStartExceedsDuration
        else .ok (audioSlice total start_ms (total : ℤ))
    | none, some e, _ =>
      if e ≤ 0 then .error .trimEndNotPositive
      else
        let end_ms := pyInt (e * 1000)
        if (total : ℤ) < end_ms then .error .trimEndExceedsDuration
        else .ok (audioSlice total 0 end_ms)
    | none, none, some r =>
      if r.1 < 0 then .error .invalidTimeRange
      else
        let start_ms := pyInt (r.1 * 1000)
        let end_ms := pyInt (r.2 * 1000)
        if (total : ℤ) < end_ms then .error .trimRangeExceedsDuration
        else .ok (audioSlice total start_ms (-end_ms))
    | none, none, none => .error .ambiguousTrimSpec

/-- Embeds the bare-number branch of `validators.validate_time_range`
(validators.py lines 59-64): `is_range = any((start > 0, end != -1))`. -/
def validate_time_range (start end_ : ℚ) : ℚ × ℚ × Bool :=
  (start, end_, decide (0 < start) || decide (end_ ≠ -1))

/-- Supported output formats (`formarts.SUPPORTED_AUDIO_FORMATS`). -/
def supported_formats : List String := ["wav", "mp3", "ogg", "flac", "aiff"]

/-- Events of `AudioProcessor.__init__` (slicer.py lines 18-33): the
format check happens at construction, with no file access at all.  The
argument is the format as stored by the constructor, i.e. already
lowercased by `output_format.lower()` (the lowercasing itself is pure
string massaging and is not modelled). -/
def init_events (output_format : String) : List Event :=
  if output_format ∈ supported_formats then [] else [Event.raiseErr Err.unsupportedFormat]

/-- Python `str.endswith`, modelled on the character list of the string. -/
def strEndsWith (s suf : String) : Bool :=
  suf.data.isSuffixOf s.data

/-- The argument of `validators.validate_duration`: a bare number or a
unit-suffixed string. -/
inductive TimeArg where
  | num (q : ℚ)
  | str (s : String)

/-- Events of `validators.validate_duration`: a pure function with no file
access; it raises only when a string argument (already lowercased by
`time.lower()`) carries neither the `sec` nor the `min` suffix. -/
def validate_duration_events : TimeArg → List Event
  | .num _ => []
  | .str s =>
    if strEndsWith s "sec" then []
    else if strEndsWith s "min" then []
    else [Event.raiseErr Err.invalidUnit]

/-- Event trace of `AudioProcessor.split_by_time`, in the program order of
slicer.py lines 99-157: file validation and decode happen first, the
chunk-duration check only after them; the empty-chunk-list condition is
logged, not raised. -/
def split_by_time_events (total : ℕ) (chunk : ℤ) (sections : Sections) (strict : Bool) :
    List Event :=
  [Event.validateFile, Event.loadAudio] ++
    (if chunk ≤ 0 then [Event.raiseErr Err.chunkDurationNotPositive]
     else if sections = Sections.num 1 then
       if (total : ℤ) ≤ chunk then [Event.raiseErr Err.splitTimeExceedsDuration]
       else [Event.saveAudio, Event.saveAudio]
     else
       let chunks := dropSmallLast chunk strict (make_chunks total chunk)
       let warn := if chunks = [] then [Event.logWarn Err.noChunksCreated] else []
       let s := sectionsInt sections
       warn ++ (if s ≠ 0 then pyTake chunks s else chunks).map (fun _ => Event.saveAudio))

/-- Event trace of `AudioProcessor.split_by_size` (slicer.py lines
179-200): file validation and decode happen first, the size check only
after them; the delegated `split_by_time` call re-validates and re-loads
the file. -/
def split_by_size_events (total : ℕ) (output_format : String) (kbps : ℤ)
    (sample_width channels frame_rate : ℕ) (max_size_bytes : ℤ)
    (sections : Sections) (strict : Bool) : List Event :=
  [Event.validateFile, Event.loadAudio] ++
    (if max_size_bytes ≤ 0 then [Event.raiseErr Err.maxSizeNotPositive]
     else
       let chunk := pyInt ((max_size_bytes : ℚ) / bytes_per_ms output_format kbps sample_width channels frame_rate)
       split_by_time_events total chunk sections strict)

/-- Event trace of `AudioProcessor.trim` (slicer.py lines 224-280): the
exactly-one check precedes file validation and decode; the per-branch
range checks follow the decode. -/
def trim_events (total : ℕ) (trim_start trim_end : Option ℚ) (trim_range : Option (ℚ × ℚ)) :
    List Event :=
  if providedCount trim_start trim_end trim_range ≠ 1 then
    [Event.raiseErr Err.ambiguousTrimSpec]
  else
    [Event.validateFile, Event.loadAudio] ++
      (match trim total trim_start trim_end trim_range with
       | .error e => [Event.raiseErr e]
       | .ok _ => [Event.saveAudio])

instance {ε α : Type} [DecidableEq ε] [DecidableEq α] : DecidableEq (Except ε α)
  | .error x, .error y => decidable_of_iff (x = y) (by simp)
  | .error _, .ok _ => .isFalse (by simp)
  | .ok _, .error _ => .isFalse (by simp)
  | .ok x, .ok y => decidable_of_iff (x = y) (by simp)

/-! ### Evaluation helpers -/

theorem pyInt_nonneg {q : ℚ} (h : 0 ≤ q) : 0 ≤ pyInt q := by
  rw [pyInt, if_neg (not_lt.2 h)]
  exact Int.floor_nonneg.2 h

theorem pyInt_of_nonneg {q : ℚ} (h : 0 ≤ q) : pyInt q = ⌊q⌋ := by
  rw [pyInt, if_neg (not_lt.2 h)]

theorem pyInt_coe_mul (n : ℕ) : pyInt ((n : ℚ) * 1000) = (n : ℤ) * 1000 := by
  have h : ((n : ℚ) * 1000) = (((n * 1000 : ℕ) : ℤ) : ℚ) := by push_cast; ring
  rw [pyInt, h, if_neg (not_lt.2 (by positivity)), Int.floor_intCast]
  push_cast
  ring

theorem pyInt_zero_mul : pyInt ((0 : ℚ) * 1000) = 0 := by
  rw [zero_mul, pyInt, if_neg (by norm_num), Int.floor_zero]

/-! ### Slice-resolution helpers -/

theorem audioSlice_nonneg (total : ℕ) (s e : ℤ) (hs : 0 ≤ s) (he : 0 ≤ e) :
    audioSlice total s e = (min s (total : ℤ), min e (total : ℤ)) := by
  simp only [audioSlice, parsePosition, byteClamp, Prod.mk.injEq]
  constructor <;> omega

theorem audioSlice_negEnd (total : ℕ) (s e : ℤ) (hs : 0 ≤ s) (he1 : 0 < e)
    (he2 : e ≤ (total : ℤ)) :
    audioSlice total s (-e) = (min s (total : ℤ), (total : ℤ) - e) := by
  simp only [audioSlice, parsePosition, byteClamp, Prod.mk.injEq]
  constructor <;> omega

/-! ### Trim branch reductions -/

theorem normStart_of_ne {s : ℚ} (h : s ≠ 0) : normStart (some s) = some s := by
  simp [normStart, h]

theorem normEnd_of_ne {e : ℚ} (h : e ≠ -1) : normEnd (some e) = some e := by
  simp [normEnd, h]

theorem trim_count_ne_one (total : ℕ) (ts te : Option ℚ) (tr : Option (ℚ × ℚ))
    (h : providedCount ts te tr ≠ 1) :
    trim total ts te tr = .error .ambiguousTrimSpec := by
  rw [trim.eq_def, if_pos h]

theorem trim_start_def (total : ℕ) (s : ℚ) (h : s ≠ 0) :
    trim total (some s) none none =
      (if s ≤ 0 then .error .trimStartNotPositive
       else if (total : ℤ) ≤ pyInt (s * 1000) then .error .trimStartExceedsDuration
       else .ok (audioSlice total (pyInt (s * 1000)) (total : ℤ))) := by
  have hc : providedCount (some s) none none = 1 := by
    simp [providedCount, normStart_of_ne h, normEnd]
  rw [trim.eq_def, if_neg (by omega)]
  rw [normStart_of_ne h]

theorem trim_end_def (total : ℕ) (e : ℚ) (h : e ≠ -1) :
    trim total none (some e) none =
      (if e ≤ 0 then .error .trimEndNotPositive
       else if (total : ℤ) < pyInt (e * 1000) then .error .trimEndExceedsDuration
       else .ok (audioSlice total 0 (pyInt (e * 1000)))) := by
  have hc : providedCount none (some e) none = 1 := by
    simp [providedCount, normStart, normEnd_of_ne h]
  rw [trim.eq_def, if_neg (by omega)]
  rw [normEnd_of_ne h]
  rfl

theorem trim_range_def (total : ℕ) (r : ℚ × ℚ) :
    trim total none none (some r) =
      (if r.1 < 0 then .error .invalidTimeRange
       else if (total : ℤ) < pyInt (r.2 * 1000) then .error .trimRangeExceedsDuration
       else .ok (audioSlice total (pyInt (r.1 * 1000)) (-pyInt (r.2 * 1000)))) := by
  have hc : providedCount none none (some r) = 1 := by
    simp [providedCount, normStart, normEnd]
  rw [trim.eq_def, if_neg (by omega)]
  rfl

theorem trim_start_neg (total : ℕ) (s : ℚ) (h : s < 0) :
    trim total (some s) none none = .error .trimStartNotPositive := by
  rw [trim_start_def total s h.ne, if_pos h.le]

theorem trim_start_exceeds (total : ℕ) (s : ℚ) (h0 : 0 < s)
    (h : (total : ℤ) ≤ pyInt (s * 1000)) :
    trim total (some s) none none = .error .trimStartExceedsDuration := by
  rw [trim_start_def total s h0.ne', if_neg (not_le.2 h0), if_pos h]

theorem trim_start_ok (total : ℕ) (s : ℚ) (h0 : 0 < s)
    (h : pyInt (s * 1000) < (total : ℤ)) :
    trim total (some s) none none = .ok (pyInt (s * 1000), (total : ℤ)) := by
  rw [trim_start_def total s h0.ne', if_neg (not_le.2 h0), if_neg (not_le.2 h)]
  rw [audioSlice_nonneg _ _ _ (pyInt_nonneg (mul_nonneg h0.le (by norm_num)))
    (by positivity)]
  rw [min_eq_left h.le, min_self]

theorem trim_end_nonpos (total : ℕ) (e : ℚ) (h : e ≤ 0) (hne : e ≠ -1) :
    trim total none (some e) none = .error .trimEndNotPositive := by
  rw [trim_end_def total e hne, if_pos h]

theorem trim_end_exceeds (total : ℕ) (e : ℚ) (h0 : 0 < e)
    (h : (total : ℤ) < pyInt (e * 1000)) :
    trim total none (some e) none = .error .trimEndExceedsDuration := by
  rw [trim_end_def total e (by intro hh; rw [hh] at h0; norm_num at h0),
    if_neg (not_le.2 h0), if_pos h]

theorem trim_end_ok (total : ℕ) (e : ℚ) (h0 : 0 < e)
    (h : pyInt (e * 1000) ≤ (total : ℤ)) :
    trim total none (some e) none = .ok (0, pyInt (e * 1000)) := by
  rw [trim_end_def total e (by intro hh; rw [hh] at h0; norm_num at h0),
    if_neg (not_le.2 h0), if_neg (not_lt.2 h)]
  rw [audioSlice_nonneg _ _ _ le_rfl (pyInt_nonneg (mul_nonneg h0.le (by norm_num)))]
  rw [min_eq_left (by positivity), min_eq_left h]

theorem trim_range_neg (total : ℕ) (r : ℚ × ℚ) (h : r.1 < 0) :
    trim total none none (some r) = .error .invalidTimeRange := by
  rw [trim_range_def, if_pos h]

theorem trim_range_exceeds (total : ℕ) (r : ℚ × ℚ) (h0 : 0 ≤ r.1)
    (h : (total : ℤ) < pyInt (r.2 * 1000)) :
    trim total none none (some r) = .error .trimRangeExceedsDuration := by
  rw [trim_range_def, if_neg (not_lt.2 h0), if_pos h]

theorem trim_range_ok (total : ℕ) (r : ℚ × ℚ) (h0 : 0 ≤ r.1)
    (hpos : 0 < pyInt (r.2 * 1000)) (hle : pyInt (r.2 * 1000) ≤ (total : ℤ)) :
    trim total none none (some r) =
      .ok (min (pyInt (r.1 * 1000)) (total : ℤ), (total : ℤ) - pyInt (r.2 * 1000)) := by
  rw [trim_range_def, if_neg (not_lt.2 h0), if_neg (not_lt.2 hle)]
  rw [audioSlice_negEnd _ _ _ (pyInt_nonneg (mul_nonneg h0 (by norm_num))) hpos hle]

theorem trim_range_end_zero (total : ℕ) (ss : ℚ) (h0 : 0 ≤ ss)
    (hlt : pyInt (ss * 1000) < (total : ℤ)) :
    trim total none none (some (ss, 0)) = .ok (pyInt (ss * 1000), 0) := by
  rw [trim_range_def, if_neg (not_lt.2 h0)]
  simp only [pyInt_zero_mul, neg_zero]
  rw [if_neg (by omega)]
  rw [audioSlice_nonneg _ _ _ (pyInt_nonneg (mul_nonneg h0 (by norm_num))) le_rfl]
  rw [min_eq_left hlt.le, min_eq_left (by positivity)]

theorem trim_count_one_not_ambiguous (total : ℕ) (ts te : Option ℚ)
    (tr : Option (ℚ × ℚ)) (h : providedCount ts te tr = 1) :
    trim total ts te tr ≠ .error .ambiguousTrimSpec := by
  rw [trim.eq_def, if_neg (by omega)]
  rcases hts : normStart ts with _ | s
  · rcases hte : normEnd te with _ | e
    · rcases tr with _ | r
      · exfalso
        rw [providedCount, hts, hte] at h
        simp at h
      · simp only [hts, hte]
        split_ifs <;> simp
    · simp only [hts, hte]
      split_ifs <;> simp
  · simp only [hts]
    split_ifs <;> simp

/-! ### Event-trace reductions for trim -/

theorem trim_events_count_ne_one (total : ℕ) (ts te : Option ℚ) (tr : Option (ℚ × ℚ))
    (h : providedCount ts te tr ≠ 1) :
    trim_events total ts te tr = [Event.raiseErr Err.ambiguousTrimSpec] := by
  rw [trim_events.eq_def, if_pos h]

theorem trim_events_of_error (total : ℕ) (ts te : Option ℚ) (tr : Option (ℚ × ℚ))
    (e : Err) (h1 : providedCount ts te tr = 1) (h2 : trim total ts te tr = .error e) :
    trim_events total ts te tr =
      [Event.validateFile, Event.loadAudio, Event.raiseErr e] := by
  rw [trim_events.eq_def, if_neg (by omega), h2]
  rfl

theorem trim_events_of_ok (total : ℕ) (ts te : Option ℚ) (tr : Option (ℚ × ℚ))
    (w : ℤ × ℤ) (h1 : providedCount ts te tr = 1) (h2 : trim total ts te tr = .ok w) :
    trim_events total ts te tr =
      [Event.validateFile, Event.loadAudio, Event.saveAudio] := by
  rw [trim_events.eq_def, if_neg (by omega), h2]
  rfl

/-! ### Concrete evaluations -/

theorem pyInt_ten_thousand : pyInt ((10 : ℚ) * 1000) = 10000 := by
  norm_num [pyInt]

theorem pyInt_five_thousand : pyInt ((5 : ℚ) * 1000) = 5000 := by
  norm_num [pyInt]

theorem pyInt_seventy_thousand : pyInt ((70 : ℚ) * 1000) = 70000 := by
  norm_num [pyInt]

theorem pyInt_three_thousand : pyInt ((3 : ℚ) * 1000) = 3000 := by
  norm_num [pyInt]

/-! ### Claim C1 -/

/-- C1, counterexample: on the bare-number pair `(start, end) = (0, 3)` the
code returns `is_range = true` although `start` equals the sentinel `0`,
so `is_range` is not restricted to the case where both bounds are
non-default. -/
theorem validate_time_range_zero_start_counterexample :
    (validate_time_range 0 3).2.2 = true ∧ ¬ ((0 : ℚ) ≠ 0 ∧ (3 : ℚ) ≠ -1) := by
  constructor
  · decide
  · simp

/-- C1 (amended): for bare-number inputs, `validate_time_range` passes the
bounds through unchanged and returns `is_range = true` iff `start > 0` OR
`end ≠ -1`, i.e. as soon as either bound is non-default. -/
theorem validate_time_range_num_spec (s e : ℚ) :
    (validate_time_range s e).1 = s ∧ (validate_time_range s e).2.1 = e ∧
    ((validate_time_range s e).2.2 = true ↔ 0 < s ∨ e ≠ -1) := by
  refine ⟨rfl, rfl, ?_⟩
  simp [validate_time_range]

/-! ### Claim C5 -/

/-- C5: after treating `trim_start = 0` and `trim_end = -1` as not
supplied, a call to `trim` with a number of supplied arguments different
from one fails with the ambiguous-trim-spec error before any file access,
and a call with exactly one supplied argument never fails with that
error. -/
theorem trim_exactly_one_spec (total : ℕ) (ts te : Option ℚ) (tr : Option (ℚ × ℚ)) :
    (providedCount ts te tr ≠ 1 →
      trim total ts te tr = .error .ambiguousTrimSpec ∧
      trim_events total ts te tr = [Event.raiseErr Err.ambiguousTrimSpec]) ∧
    (providedCount ts te tr = 1 →
      trim total ts te tr ≠ .error .ambiguousTrimSpec) :=
  ⟨fun h => ⟨trim_count_ne_one total ts te tr h, trim_events_count_ne_one total ts te tr h⟩,
   fun h => trim_count_one_not_ambiguous total ts te tr h⟩

/-- C5, witness: supplying both `trim_range` and `trim_start` fails with
the ambiguous-trim-spec error, with no file validated or loaded. -/
theorem trim_exactly_one_spec_witness :
    trim 1000 (some 3) none (some (1, 2)) = .error .ambiguousTrimSpec ∧
    trim_events 1000 (some 3) none (some (1, 2)) =
      [Event.raiseErr Err.ambiguousTrimSpec] :=
  (trim_exactly_one_spec 1000 (some 3) none (some (1, 2))).1 (by decide)

/-! ### Claim C6 -/

/-- C6, counterexample: `trim` in start mode with `start_sec = 0` does not
fail with an invalid-range error (the claim expects one for every
`start_sec ≤ 0`); the sentinel convention turns it into the
ambiguous-trim-spec error instead. -/
theorem trim_fromStart_zero_counterexample :
    trim 60000 (some 0) none none = .error .ambiguousTrimSpec ∧
    Err.ambiguousTrimSpec ≠ Err.trimStartNotPositive ∧
    Err.ambiguousTrimSpec ≠ Err.trimStartExceedsDuration := by
  refine ⟨?_, by decide, by decide⟩
  exact trim_count_ne_one 60000 (some 0) none none (by decide)

/-- C6 (amended): start-only trim keeps `[start_ms, total)` and fails with
the invalid-range family when `start_sec < 0` or `start_ms ≥ total`, while
`start_sec = 0` is treated as not supplied and yields the
ambiguous-trim-spec error; end-only trim keeps `[0, end_ms)` and fails
with the invalid-range family when `end_sec ≤ 0` (other than the sentinel
`-1`, which is treated as not supplied) or `end_ms > total`. -/
theorem trim_fromStart_toEnd_spec (total : ℕ) (s e : ℚ) :
    (s < 0 → trim total (some s) none none = .error .trimStartNotPositive) ∧
    (0 < s → (total : ℤ) ≤ pyInt (s * 1000) →
      trim total (some s) none none = .error .trimStartExceedsDuration) ∧
    (0 < s → pyInt (s * 1000) < (total : ℤ) →
      trim total (some s) none none = .ok (pyInt (s * 1000), (total : ℤ))) ∧
    (s = 0 → trim total (some s) none none = .error .ambiguousTrimSpec) ∧
    (e ≤ 0 → e ≠ -1 → trim total none (some e) none = .error .trimEndNotPositive) ∧
    (e = -1 → trim total none (some e) none = .error .ambiguousTrimSpec) ∧
    (0 < e → (total : ℤ) < pyInt (e * 1000) →
      trim total none (some e) none = .error .trimEndExceedsDuration) ∧
    (0 < e → pyInt (e * 1000) ≤ (total : ℤ) →
      trim total none (some e) none = .ok (0, pyInt (e * 1000))) := by
  refine ⟨fun h => trim_start_neg total s h,
    fun h0 h => trim_start_exceeds total s h0 h,
    fun h0 h => trim_start_ok total s h0 h,
    fun h => ?_,
    fun h hne => trim_end_nonpos total e h hne,
    fun h => ?_,
    fun h0 h => trim_end_exceeds total e h0 h,
    fun h0 h => trim_end_ok total e h0 h⟩
  · subst h
    exact trim_count_ne_one total (some 0) none none (by decide)
  · subst h
    exact trim_count_ne_one total none (some (-1)) none (by decide)

/-- C6, witness: start-only trim with `start_sec = 70` on a 60-second file
fails because `70000 ≥ 60000`, and end-only trim with `end_sec = 3` keeps
`[0, 3000)`. -/
theorem trim_fromStart_toEnd_spec_witness :
    trim 60000 (some 70) none none = .error .trimStartExceedsDuration ∧
    trim 60000 none (some 3) none = .ok (0, pyInt ((3 : ℚ) * 1000)) :=
  ⟨(trim_fromStart_toEnd_spec 60000 70 3).2.1 (by norm_num)
      (by rw [pyInt_seventy_thousand]; decide),
   (trim_fromStart_toEnd_spec 60000 70 3).2.2.2.2.2.2.2 (by norm_num)
      (by rw [pyInt_three_thousand]; decide)⟩

/-! ### Claim C2 -/

/-- C2, counterexample: `trim_range = (10, 0)` on a 60-second file
succeeds and keeps the empty range `[10000, 0)`, not the claimed
`[start_ms, total - end_ms) = [10000, 60000)`. -/
theorem trim_range_end_zero_counterexample :
    trim 60000 none none (some (10, 0)) = .ok (10000, 0) ∧
    Set.Ico (10000 : ℤ) 0 ≠ Set.Ico (10000 : ℤ) 60000 := by
  constructor
  · have h := trim_range_end_zero 60000 10 (by norm_num)
      (by rw [pyInt_ten_thousand]; decide)
    rwa [pyInt_ten_thousand] at h
  · intro h
    have h1 : (10000 : ℤ) ∈ Set.Ico (10000 : ℤ) 60000 := by
      constructor <;> decide
    rw [← h] at h1
    exact absurd h1.2 (by decide)

/-- C2 (amended): range trim keeps `[start_ms, total - end_ms)` — the end
bound measured backward from the end of the file — provided the computed
`end_ms` is positive (an `end_ms` of zero instead keeps an empty range);
it fails with the invalid-range family when `start_sec < 0` or when
`end_ms` exceeds the total duration. -/
theorem trim_range_spec (total : ℕ) (ss es : ℚ) :
    (ss < 0 → trim total none none (some (ss, es)) = .error .invalidTimeRange) ∧
    (0 ≤ ss → (total : ℤ) < pyInt (es * 1000) →
      trim total none none (some (ss, es)) = .error .trimRangeExceedsDuration) ∧
    (0 ≤ ss → 0 < pyInt (es * 1000) → pyInt (es * 1000) ≤ (total : ℤ) →
      trim total none none (some (ss, es)) =
        .ok (min (pyInt (ss * 1000)) (total : ℤ), (total : ℤ) - pyInt (es * 1000)) ∧
      Set.Ico (min (pyInt (ss * 1000)) (total : ℤ)) ((total : ℤ) - pyInt (es * 1000)) =
        Set.Ico (pyInt (ss * 1000)) ((total : ℤ) - pyInt (es * 1000))) := by
  refine ⟨fun h => trim_range_neg total (ss, es) h,
    fun h0 h => trim_range_exceeds total (ss, es) h0 h,
    fun h0 hpos hle => ⟨trim_range_ok total (ss, es) h0 hpos hle, ?_⟩⟩
  rcases le_or_lt (pyInt (ss * 1000)) (total : ℤ) with hc | hc
  · rw [min_eq_left hc]
  · rw [min_eq_right hc.le, Set.Ico_eq_empty (by omega), Set.Ico_eq_empty (by omega)]

/-- C2, witness: `trim_range = (10, 5)` on a 60-second file keeps
`[10000, 55000)`, the end measured from the end of the file. -/
theorem trim_range_spec_witness :
    trim 60000 none none (some (10, 5)) = .ok (10000, 55000) := by
  have h := ((trim_range_spec 60000 10 5).2.2 (by norm_num)
    (by rw [pyInt_five_thousand]; decide) (by rw [pyInt_five_thousand]; decide)).1
  rw [pyInt_ten_thousand, pyInt_five_thousand] at h
  simpa using h

/-! ### Claim C10 -/

/-- C10: for every `start_sec` with `0 ≤ start_ms < total`, a range trim
with end bound `0` succeeds yet keeps the empty range `[start_ms, 0)` of
length zero, not `[start_ms, total)`. -/
theorem trim_range_zero_end_spec (total : ℕ) (ss : ℚ) (h0 : 0 ≤ ss)
    (hlt : pyInt (ss * 1000) < (total : ℤ)) :
    trim total none none (some (ss, 0)) = .ok (pyInt (ss * 1000), 0) ∧
    segLen (pyInt (ss * 1000), 0) = 0 ∧
    (0 < (total : ℤ) →
      (pyInt (ss * 1000), (0 : ℤ)) ≠ (pyInt (ss * 1000), (total : ℤ))) := by
  have hnn : 0 ≤ pyInt (ss * 1000) := pyInt_nonneg (mul_nonneg h0 (by norm_num))
  refine ⟨trim_range_end_zero total ss h0 hlt, ?_, ?_⟩
  · rw [segLen]
    simp only []
    omega
  · intro hpos hcontra
    have := congrArg Prod.snd hcontra
    simp only [] at this
    omega

/-- C10, witness: `trim_range = (10, 0)` on a 60-second file succeeds with
the empty kept range `[10000, 0)`. -/
theorem trim_range_zero_end_spec_witness :
    trim 60000 none none (some (10, 0)) = .ok (pyInt ((10 : ℚ) * 1000), 0) ∧
    segLen (pyInt ((10 : ℚ) * 1000), 0) = 0 :=
  ⟨(trim_range_zero_end_spec 60000 10 (by norm_num)
      (by rw [pyInt_ten_thousand]; decide)).1,
   (trim_range_zero_end_spec 60000 10 (by norm_num)
      (by rw [pyInt_ten_thousand]; decide)).2.1⟩

/-! ### Claim C4 -/

theorem bytes_per_ms_wav_example : (0 : ℚ) < bytes_per_ms "wav" 192 2 2 44100 := by
  norm_num [bytes_per_ms]

/-- C4: splitting by size is a projection onto splitting by duration: for
a positive size it produces exactly the result of `split_by_time` at
`chunk_ms = floor(max_bytes / bytes_per_ms)`, where `bytes_per_ms` is
`sample_width * channels * frame_rate / 1000` for wav output and
`bitrate_kbps * 1000 / 8000` otherwise; a non-positive size fails with the
invalid-size error. -/
theorem split_by_size_spec (total : ℕ) (output_format : String) (kbps : ℤ)
    (sample_width channels frame_rate : ℕ) (max_size_bytes : ℤ)
    (sections : Sections) (strict : Bool) :
    (max_size_bytes ≤ 0 →
      split_by_size total output_format kbps sample_width channels frame_rate
        max_size_bytes sections strict = .error .maxSizeNotPositive) ∧
    (0 < max_size_bytes →
      0 < bytes_per_ms output_format kbps sample_width channels frame_rate →
      split_by_size total output_format kbps sample_width channels frame_rate
          max_size_bytes sections strict =
        split_by_time total
          ⌊(max_size_bytes : ℚ) /
            bytes_per_ms output_format kbps sample_width channels frame_rate⌋
          sections strict) ∧
    bytes_per_ms "wav" kbps sample_width channels frame_rate =
      ((sample_width : ℚ) * channels * frame_rate) / 1000 ∧
    (output_format ≠ "wav" →
      bytes_per_ms output_format kbps sample_width channels frame_rate =
        ((kbps : ℚ) * 1000) / 8000) := by
  refine ⟨fun h => ?_, fun h hb => ?_, ?_, fun h => ?_⟩
  · rw [split_by_size, if_pos h]
  · rw [split_by_size, if_neg (not_le.2 h)]
    rw [pyInt_of_nonneg (div_nonneg (by exact_mod_cast h.le) hb.le)]
  · rw [bytes_per_ms, if_pos rfl]
  · rw [bytes_per_ms, if_neg h]
    norm_num

/-- C4, witness: a 1 MiB wav split at `sample_width = 2`, `channels = 2`,
`frame_rate = 44100` equals the duration split at the floored chunk
duration, and a negative size fails with the invalid-size error. -/
theorem split_by_size_spec_witness :
    split_by_size 10000 "wav" 192 2 2 44100 1048576 Sections.max false =
      split_by_time 10000
        ⌊(1048576 : ℚ) / bytes_per_ms "wav" 192 2 2 44100⌋ Sections.max false ∧
    split_by_size 10000 "wav" 192 2 2 44100 (-5) Sections.max false =
      .error .maxSizeNotPositive :=
  ⟨(split_by_size_spec 10000 "wav" 192 2 2 44100 1048576 Sections.max false).2.1
      (by decide) bytes_per_ms_wav_example,
   (split_by_size_spec 10000 "wav" 192 2 2 44100 (-5) Sections.max false).1
      (by decide)⟩

/-! ### Claim C3 -/

/-- C3, counterexample: the non-positive chunk-duration validation error
is raised only after the file is validated and the audio decoded, not
before any file I/O. -/
theorem chunk_check_after_load_counterexample :
    split_by_time_events 1000 0 Sections.max false =
      [Event.validateFile, Event.loadAudio,
        Event.raiseErr Err.chunkDurationNotPositive] ∧
    (split_by_time_events 1000 0 Sections.max false).take 2 =
      [Event.validateFile, Event.loadAudio] := by
  constructor <;> decide

/-- C3 (amended): the invalid-unit, unsupported-format and
ambiguous-trim-spec errors are raised before any file I/O; the
non-positive size and non-positive chunk-duration checks run only after
the file is validated and decoded, as do the exceeds-duration and
invalid-range checks. -/
theorem error_phase_spec :
    (∀ (total : ℕ) (ts te : Option ℚ) (tr : Option (ℚ × ℚ)),
      providedCount ts te tr ≠ 1 →
      trim_events total ts te tr = [Event.raiseErr Err.ambiguousTrimSpec]) ∧
    (∀ fmt : String, fmt ∉ supported_formats →
      init_events fmt = [Event.raiseErr Err.unsupportedFormat]) ∧
    (∀ s : String, strEndsWith s "sec" = false → strEndsWith s "min" = false →
      validate_duration_events (.str s) = [Event.raiseErr Err.invalidUnit]) ∧
    (∀ (total : ℕ) (chunk : ℤ) (sections : Sections) (strict : Bool), chunk ≤ 0 →
      split_by_time_events total chunk sections strict =
        [Event.validateFile, Event.loadAudio,
          Event.raiseErr Err.chunkDurationNotPositive]) ∧
    (∀ (total : ℕ) (fmt : String) (kbps : ℤ) (sw ch fr : ℕ) (maxB : ℤ)
        (sections : Sections) (strict : Bool), maxB ≤ 0 →
      split_by_size_events total fmt kbps sw ch fr maxB sections strict =
        [Event.validateFile, Event.loadAudio,
          Event.raiseErr Err.maxSizeNotPositive]) ∧
    (∀ (total : ℕ) (chunk : ℤ) (strict : Bool), 0 < chunk → (total : ℤ) ≤ chunk →
      split_by_time_events total chunk (Sections.num 1) strict =
        [Event.validateFile, Event.loadAudio,
          Event.raiseErr Err.splitTimeExceedsDuration]) ∧
    (∀ (total : ℕ) (s : ℚ), s < 0 →
      trim_events total (some s) none none =
        [Event.validateFile, Event.loadAudio,
          Event.raiseErr Err.trimStartNotPositive]) := by
  refine ⟨fun total ts te tr h => trim_events_count_ne_one total ts te tr h,
    fun fmt h => ?_, fun s h1 h2 => ?_, fun total chunk sections strict h => ?_,
    fun total fmt kbps sw ch fr maxB sections strict h => ?_,
    fun total chunk strict h0 h => ?_, fun total s h => ?_⟩
  · rw [init_events, if_neg h]
  · simp [validate_duration_events, h1, h2]
  · rw [split_by_time_events.eq_def, if_pos h]
    rfl
  · rw [split_by_size_events.eq_def, if_pos h]
    rfl
  · rw [split_by_time_events.eq_def, if_neg (not_le.2 h0), if_pos rfl, if_pos h]
    rfl
  · have hc : providedCount (some s) none none = 1 := by
      simp [providedCount, normStart_of_ne h.ne, normEnd]
    exact trim_events_of_error total (some s) none none _ hc (trim_start_neg total s h)

/-- C3, witness: each phase fact of the amended claim at a concrete
input: ambiguous trim spec, unsupported format and invalid unit raise
without touching the file; non-positive chunk duration, non-positive size,
exceeded duration and a negative trim start raise only after decode. -/
theorem error_phase_spec_witness :
    trim_events 500 none none none = [Event.raiseErr Err.ambiguousTrimSpec] ∧
    init_events "aku" = [Event.raiseErr Err.unsupportedFormat] ∧
    validate_duration_events (.str "10kb") = [Event.raiseErr Err.invalidUnit] ∧
    split_by_time_events 1000 0 Sections.max true =
      [Event.validateFile, Event.loadAudio,
        Event.raiseErr Err.chunkDurationNotPositive] ∧
    split_by_size_events 1000 "wav" 192 2 2 44100 (-1) Sections.max false =
      [Event.validateFile, Event.loadAudio,
        Event.raiseErr Err.maxSizeNotPositive] ∧
    split_by_time_events 1000 2000 (Sections.num 1) false =
      [Event.validateFile, Event.loadAudio,
        Event.raiseErr Err.splitTimeExceedsDuration] ∧
    trim_events 1000 (some (-5)) none none =
      [Event.validateFile, Event.loadAudio,
        Event.raiseErr Err.trimStartNotPositive] :=
  ⟨error_phase_spec.1 500 none none none (by decide),
   error_phase_spec.2.1 "aku" (by decide),
   error_phase_spec.2.2.1 "10kb" (by decide) (by decide),
   error_phase_spec.2.2.2.1 1000 0 Sections.max true (by decide),
   error_phase_spec.2.2.2.2.1 1000 "wav" 192 2 2 44100 (-1) Sections.max false
     (by decide),
   error_phase_spec.2.2.2.2.2.1 1000 2000 false (by decide) (by decide),
   error_phase_spec.2.2.2.2.2.2 1000 (-5) (by norm_num)⟩

/-! ### Chunk-planner helpers -/

theorem dropSmallLast_false (chunk : ℤ) (l : List (ℤ × ℤ)) :
    dropSmallLast chunk false l = l := rfl

theorem dropSmallLast_sublist (chunk : ℤ) (strict : Bool) (l : List (ℤ × ℤ)) :
    (dropSmallLast chunk strict l).Sublist l := by
  rw [dropSmallLast.eq_def]
  rcases strict with _ | _
  · exact List.Sublist.refl l
  · rcases l.getLast? with _ | w
    · exact List.Sublist.refl l
    · dsimp only []
      split_ifs
      · exact List.dropLast_sublist l
      · exact List.Sublist.refl l

theorem pyTake_of_pos {α : Type} (l : List α) (k : ℤ) (hk : 0 ≤ k) :
    pyTake l k = l.take k.toNat := by
  rw [pyTake, if_neg (not_lt.2 hk)]

theorem pyTake_sublist {α : Type} (l : List α) (k : ℤ) : (pyTake l k).Sublist l := by
  rw [pyTake]
  split_ifs <;> exact List.take_sublist _ l

theorem lt_numChunks_iff {total : ℕ} {chunk : ℤ} (hc : 0 < chunk) (i : ℕ) :
    i < numChunks total chunk ↔ (i : ℤ) * chunk < (total : ℤ) := by
  rw [numChunks, Int.lt_toNat, Int.lt_ceil,
    lt_div_iff₀ (by exact_mod_cast hc : (0 : ℚ) < (chunk : ℚ))]
  constructor <;> intro h <;> exact_mod_cast h

theorem make_chunks_eq (total : ℕ) {chunk : ℤ} (hc : 0 < chunk) :
    make_chunks total chunk = (List.range (numChunks total chunk)).map
      (fun (i : ℕ) => (min ((i : ℤ) * chunk) (total : ℤ),
        min (((i : ℤ) + 1) * chunk) (total : ℤ))) := by
  rw [make_chunks]
  apply List.map_congr_left
  intro i _
  exact audioSlice_nonneg total _ _ (mul_nonneg (Int.natCast_nonneg i) hc.le)
    (mul_nonneg (by positivity) hc.le)

theorem make_chunks_chain' (total : ℕ) {chunk : ℤ} (hc : 0 < chunk) :
    List.Chain' (fun a b => a.2 = b.1) (make_chunks total chunk) := by
  rw [make_chunks_eq total hc, List.chain'_map]
  rcases hn : numChunks total chunk with _ | n
  · simp
  · rw [List.chain'_range_succ]
    intro m _
    show min (((m : ℤ) + 1) * chunk) (total : ℤ) =
      min (((m.succ : ℕ) : ℤ) * chunk) (total : ℤ)
    push_cast
    ring_nf

theorem make_chunks_union (total : ℕ) {chunk : ℤ} (hc : 0 < chunk) (t : ℤ) :
    (∃ w ∈ make_chunks total chunk, w.1 ≤ t ∧ t < w.2) ↔
      0 ≤ t ∧ t < (total : ℤ) := by
  rw [make_chunks_eq total hc]
  constructor
  · rintro ⟨w, hw, h1, h2⟩
    rw [List.mem_map] at hw
    obtain ⟨i, _, rfl⟩ := hw
    dsimp only [] at h1 h2
    refine ⟨le_trans (le_min (mul_nonneg (Int.natCast_nonneg i) hc.le)
      (Int.natCast_nonneg total)) h1, lt_of_lt_of_le h2 (min_le_right _ _)⟩
  · rintro ⟨h1, h2⟩
    have hd0 : 0 ≤ t / chunk := Int.ediv_nonneg h1 hc.le
    have hdt : ((t / chunk).toNat : ℤ) = t / chunk := Int.toNat_of_nonneg hd0
    have ha : t / chunk * chunk ≤ t := Int.ediv_mul_le t hc.ne'
    have hb : t < (t / chunk + 1) * chunk := Int.lt_ediv_add_one_mul_self t hc
    refine ⟨_, List.mem_map.2 ⟨(t / chunk).toNat, List.mem_range.2 ?_, rfl⟩, ?_, ?_⟩
    · rw [lt_numChunks_iff hc, hdt]
      exact lt_of_le_of_lt ha h2
    · dsimp only []
      rw [hdt]
      exact min_le_of_left_le ha
    · dsimp only []
      rw [hdt]
      exact lt_min hb h2

theorem make_chunks_pairwise (total : ℕ) {chunk : ℤ} (hc : 0 < chunk) :
    List.Pairwise (fun a b => a.2 ≤ b.1) (make_chunks total chunk) := by
  rw [make_chunks_eq total hc, List.pairwise_map]
  refine (List.pairwise_lt_range _).imp ?_
  intro i j hij
  dsimp only []
  refine min_le_min (mul_le_mul_of_nonneg_right ?_ hc.le) le_rfl
  exact_mod_cast hij

theorem make_chunks_bounds (total : ℕ) {chunk : ℤ} (hc : 0 < chunk) :
    ∀ w ∈ make_chunks total chunk, 0 ≤ w.1 ∧ w.1 ≤ w.2 ∧ w.2 ≤ (total : ℤ) := by
  rw [make_chunks_eq total hc]
  intro w hw
  rw [List.mem_map] at hw
  obtain ⟨i, _, rfl⟩ := hw
  refine ⟨le_min (mul_nonneg (Int.natCast_nonneg i) hc.le) (Int.natCast_nonneg total),
    min_le_min (mul_le_mul_of_nonneg_right (by linarith) hc.le) le_rfl,
    min_le_right _ _⟩

theorem split_by_time_max (total : ℕ) (chunk : ℤ) (strict : Bool) (hc : 0 < chunk) :
    split_by_time total chunk Sections.max strict =
      .ok (dropSmallLast chunk strict (make_chunks total chunk)) := by
  rw [split_by_time.eq_def, if_neg (not_le.2 hc), if_neg (by decide)]
  simp [sectionsInt]

theorem split_by_time_num (total : ℕ) (chunk k : ℤ) (strict : Bool) (hc : 0 < chunk)
    (hk : k ≠ 1) (hk0 : k ≠ 0) :
    split_by_time total chunk (Sections.num k) strict =
      .ok (pyTake (dropSmallLast chunk strict (make_chunks total chunk)) k) := by
  rw [split_by_time.eq_def, if_neg (not_le.2 hc), if_neg (by simp [hk])]
  simp [sectionsInt, hk0]

theorem split_by_time_num_zero (total : ℕ) (chunk : ℤ) (strict : Bool) (hc : 0 < chunk) :
    split_by_time total chunk (Sections.num 0) strict =
      .ok (dropSmallLast chunk strict (make_chunks total chunk)) := by
  rw [split_by_time.eq_def, if_neg (not_le.2 hc), if_neg (by decide)]
  simp [sectionsInt]

/-! ### Claim C7 -/

/-- C7: with chunk_duration_ms > 0, single-split mode produces exactly the
two ranges [0, chunk) and [chunk, total), whose lengths sum to the total
duration, and fails with the exceeds-duration error when
chunk_duration_ms ≥ total_duration_ms. -/
theorem single_split_spec (total : ℕ) (chunk : ℤ) (strict : Bool) (hc : 0 < chunk) :
    ((total : ℤ) ≤ chunk →
      split_by_time total chunk (Sections.num 1) strict =
        .error .splitTimeExceedsDuration) ∧
    (chunk < (total : ℤ) →
      split_by_time total chunk (Sections.num 1) strict =
        .ok [(0, chunk), (chunk, (total : ℤ))] ∧
      segLen (0, chunk) + segLen (chunk, (total : ℤ)) = (total : ℤ)) := by
  constructor
  · intro h
    rw [split_by_time.eq_def, if_neg (not_le.2 hc), if_pos rfl, if_pos h]
  · intro h
    constructor
    · rw [split_by_time.eq_def, if_neg (not_le.2 hc), if_pos rfl, if_neg (not_le.2 h)]
      rw [audioSlice_nonneg total 0 chunk le_rfl hc.le,
        audioSlice_nonneg total chunk (total : ℤ) hc.le (Int.natCast_nonneg total)]
      rw [min_eq_left (Int.natCast_nonneg total), min_eq_left h.le, min_self]
    · rw [segLen, segLen]
      dsimp only []
      omega

/-- C7, witness: a single split at 25 seconds of a 60-second file yields
[0, 25000) and [25000, 60000) summing to 60000, and a single split at 2
seconds of a 1-second file fails with the exceeds-duration error. -/
theorem single_split_spec_witness :
    (split_by_time 60000 25000 (Sections.num 1) false =
      .ok [(0, 25000), (25000, 60000)] ∧
      segLen (0, 25000) + segLen (25000, (60000 : ℤ)) = 60000) ∧
    split_by_time 1000 2000 (Sections.num 1) false =
      .error .splitTimeExceedsDuration :=
  ⟨(single_split_spec 60000 25000 false (by decide)).2 (by decide),
   (single_split_spec 1000 2000 false (by decide)).1 (by decide)⟩

/-! ### Claim C8 -/

theorem split_result_sublist (total : ℕ) (chunk : ℤ) (sections : Sections)
    (strict : Bool) (l : List (ℤ × ℤ)) (hc : 0 < chunk)
    (hs : sections ≠ Sections.num 1)
    (h : split_by_time total chunk sections strict = .ok l) :
    l.Sublist (make_chunks total chunk) := by
  rcases sections with _ | k
  · rw [split_by_time_max total chunk strict hc] at h
    injection h with h
    subst h
    exact dropSmallLast_sublist chunk strict _
  · rcases eq_or_ne k 0 with rfl | hk0
    · rw [split_by_time_num_zero total chunk strict hc] at h
      injection h with h
      subst h
      exact dropSmallLast_sublist chunk strict _
    · have hk : k ≠ 1 := by
        rintro rfl
        exact hs rfl
      rw [split_by_time_num total chunk k strict hc hk hk0] at h
      injection h with h
      subst h
      exact (pyTake_sublist _ k).trans (dropSmallLast_sublist chunk strict _)

/-- C8: with chunk_duration_ms > 0, the max-mode non-strict plan is a
list of contiguous ascending windows whose union is exactly
[0, total_duration_ms); and in every mode, any produced range list is
non-overlapping, ascending and collectively within [0, total]. -/
theorem chunk_planner_invariants (total : ℕ) (chunk : ℤ) (hc : 0 < chunk) :
    (∃ W, split_by_time total chunk Sections.max false = .ok W ∧
      List.Chain' (fun a b => a.2 = b.1) W ∧
      (∀ t : ℤ, (∃ w ∈ W, w.1 ≤ t ∧ t < w.2) ↔ 0 ≤ t ∧ t < (total : ℤ))) ∧
    (∀ (sections : Sections) (strict : Bool) (l : List (ℤ × ℤ)),
      split_by_time total chunk sections strict = .ok l →
      List.Pairwise (fun a b => a.2 ≤ b.1) l ∧
      ∀ w ∈ l, 0 ≤ w.1 ∧ w.1 ≤ w.2 ∧ w.2 ≤ (total : ℤ)) := by
  constructor
  · refine ⟨make_chunks total chunk, ?_, make_chunks_chain' total hc,
      fun t => make_chunks_union total hc t⟩
    rw [split_by_time_max total chunk false hc, dropSmallLast_false]
  · intro sections strict l h
    rcases eq_or_ne sections (Sections.num 1) with rfl | hs
    · by_cases hlt : (total : ℤ) ≤ chunk
      · rw [(single_split_spec total chunk strict hc).1 hlt] at h
        cases h
      · push_neg at hlt
        obtain ⟨h2, _⟩ := (single_split_spec total chunk strict hc).2 hlt
        rw [h2] at h
        injection h with h
        subst h
        constructor
        · refine List.pairwise_cons.2 ⟨?_, List.pairwise_singleton _ _⟩
          intro b hb
          rw [List.mem_singleton] at hb
          subst hb
          exact le_rfl
        · intro w hw
          rcases List.mem_cons.1 hw with rfl | hw
          · exact ⟨le_rfl, hc.le, hlt.le⟩
          · rw [List.mem_singleton] at hw
            subst hw
            exact ⟨hc.le, hlt.le, le_rfl⟩
    · have hsub := split_result_sublist total chunk sections strict l hc hs h
      exact ⟨List.Pairwise.sublist hsub (make_chunks_pairwise total hc),
        fun w hw => make_chunks_bounds total hc w (hsub.mem hw)⟩

theorem numChunks_60000_25000 : numChunks 60000 25000 = 3 := by
  rw [numChunks]
  rw [show ⌈((60000 : ℕ) : ℚ) / ((25000 : ℤ) : ℚ)⌉ = 3 from by
    rw [Int.ceil_eq_iff]
    norm_num]
  rfl

theorem make_chunks_60000_25000 :
    make_chunks 60000 25000 = [(0, 25000), (25000, 50000), (50000, 60000)] := by
  rw [make_chunks, numChunks_60000_25000]
  decide

theorem split60000_25000_ok :
    split_by_time 60000 25000 Sections.max false =
      .ok [(0, 25000), (25000, 50000), (50000, 60000)] := by
  rw [split_by_time_max 60000 25000 false (by decide), dropSmallLast_false,
    make_chunks_60000_25000]

/-- C8, witness: at total = 60000 and chunk = 25000, the max-mode plan
exists with contiguous windows covering [0, 60000), and the concrete plan
[(0,25000), (25000,50000), (50000,60000)] is non-overlapping, ascending
and within bounds. -/
theorem chunk_planner_invariants_witness :
    (∃ W, split_by_time 60000 25000 Sections.max false = .ok W ∧
      List.Chain' (fun a b => a.2 = b.1) W ∧
      (∀ t : ℤ, (∃ w ∈ W, w.1 ≤ t ∧ t < w.2) ↔ 0 ≤ t ∧ t < (60000 : ℤ))) ∧
    (List.Pairwise (fun (a b : ℤ × ℤ) => a.2 ≤ b.1)
      [(0, 25000), (25000, 50000), (50000, 60000)] ∧
      ∀ w ∈ ([(0, 25000), (25000, 50000), (50000, 60000)] : List (ℤ × ℤ)),
        0 ≤ w.1 ∧ w.1 ≤ w.2 ∧ w.2 ≤ (60000 : ℤ)) :=
  ⟨(chunk_planner_invariants 60000 25000 (by decide)).1,
   (chunk_planner_invariants 60000 25000 (by decide)).2 Sections.max false
     [(0, 25000), (25000, 50000), (50000, 60000)] split60000_25000_ok⟩

/-! ### Claim C9 -/

/-- C9: in max/count mode (sections ≠ 1), strict mode removes at most the
final window — and only when its length is strictly below
chunk_duration_ms, all earlier windows being kept unchanged as a prefix —
and a positive integer section count keeps only the first `sections`
windows, the cap being applied to the strict-processed list. -/
theorem strict_and_cap_spec (total : ℕ) (chunk k : ℤ) (strict : Bool)
    (hc : 0 < chunk) (hk1 : 1 ≤ k) (hk : k ≠ 1) :
    (∃ W Wt, split_by_time total chunk Sections.max false = .ok W ∧
      split_by_time total chunk Sections.max true = .ok Wt ∧
      (Wt = W ∨ (Wt = W.dropLast ∧
        ∃ w, W.getLast? = some w ∧ segLen w < chunk)) ∧
      (∀ w, W.getLast? = some w → chunk ≤ segLen w → Wt = W)) ∧
    split_by_time total chunk (Sections.num k) strict =
      (split_by_time total chunk Sections.max strict).map
        (fun l => l.take k.toNat) := by
  constructor
  · refine ⟨make_chunks total chunk,
      dropSmallLast chunk true (make_chunks total chunk), ?_, ?_, ?_, ?_⟩
    · rw [split_by_time_max total chunk false hc, dropSmallLast_false]
    · rw [split_by_time_max total chunk true hc]
    · rw [dropSmallLast.eq_def]
      rcases hlast : (make_chunks total chunk).getLast? with _ | w
      · left
        rfl
      · dsimp only []
        split_ifs with hseg
        · right
          exact ⟨rfl, w, rfl, hseg⟩
        · left
          rfl
    · intro w hw hge
      rw [dropSmallLast.eq_def, hw]
      dsimp only []
      rw [if_neg (not_lt.2 hge)]
  · rw [split_by_time_num total chunk k strict hc hk (by omega),
      split_by_time_max total chunk strict hc]
    simp only [Except.map]
    rw [pyTake_of_pos _ _ (by omega)]

/-- C9, witness: at total = 60000, chunk = 25000, sections = 2, strict
mode, the strict drop and the section cap behave as stated. -/
theorem strict_and_cap_spec_witness :
    (∃ W Wt, split_by_time 60000 25000 Sections.max false = .ok W ∧
      split_by_time 60000 25000 Sections.max true = .ok Wt ∧
      (Wt = W ∨ (Wt = W.dropLast ∧
        ∃ w, W.getLast? = some w ∧ segLen w < 25000)) ∧
      (∀ w, W.getLast? = some w → (25000 : ℤ) ≤ segLen w → Wt = W)) ∧
    split_by_time 60000 25000 (Sections.num 2) true =
      (split_by_time 60000 25000 Sections.max true).map
        (fun l => l.take (2 : ℤ).toNat) :=
  strict_and_cap_spec 60000 25000 2 true (by decide) (by decide) (by decide)

end SonicSlicer
